import Mathlib

set_option maxRecDepth 4000

/- Shallow embedding of src/scripts/check_and_download.py (statbel-auto).

   Python strings are modelled as Lean String / List Char; the ASCII fragments
   of str.lower, str.strip and of the regex character classes \d, \s, \w are
   used (all data handled by the script is ASCII).  A Python function that can
   raise an exception is modelled in Except Unit; Except.error () stands for a
   propagated exception. -/

/-- Regex class \s (ASCII fragment): space, tab, newline, CR, VT, FF. -/
def isPySpace (c : Char) : Bool :=
  decide (c = ' ' ∨ c = '\t' ∨ c = '\n' ∨ c = '\r' ∨ c.toNat = 11 ∨ c.toNat = 12)

/-- Regex class \d (ASCII digits). -/
def isDig (c : Char) : Bool := decide (48 ≤ c.toNat ∧ c.toNat ≤ 57)

/-- Numeric value of an ASCII digit character. -/
def dval (c : Char) : Nat := c.toNat - 48

/-- Regex class \w (ASCII fragment): letters, digits, underscore. -/
def isWordChar (c : Char) : Bool := c.isAlphanum || c == '_'

/-- Python str.lower on one character (ASCII fragment). -/
def lowerChar (c : Char) : Char :=
  if 65 ≤ c.toNat ∧ c.toNat ≤ 90 then Char.ofNat (c.toNat + 32) else c

/-- Python str.lower (ASCII fragment). -/
def pyLower (s : List Char) : List Char := s.map lowerChar

/-- Python str.strip (default whitespace strip). -/
def pyStrip (s : List Char) : List Char :=
  ((s.dropWhile isPySpace).reverse.dropWhile isPySpace).reverse

/-- startsWithL p s : p is a prefix of s. -/
def startsWithL : List Char → List Char → Bool
  | [], _ => true
  | _ :: _, [] => false
  | p :: ps, c :: cs => p == c && startsWithL ps cs

/-- containsSub hay pat : Python `pat in hay` (substring containment). -/
def containsSub : List Char → List Char → Bool
  | hay, pat =>
    startsWithL pat hay ||
      match hay with
      | [] => false
      | _ :: t => containsSub t pat

/-- Value of a list of ASCII digit characters read in base 10. -/
def digitsToNat (l : List Char) : Nat := l.foldl (fun a c => a * 10 + dval c) 0

/-- Python datetime restricted to its date part (the script only ever builds
midnight datetimes from parsed text; datetime comparison is lexicographic). -/
structure Date where
  year : Nat
  month : Nat
  day : Nat
deriving DecidableEq, Repr

/-- Lexicographic date comparison, as Python datetime.__le__. -/
def dateLe (a b : Date) : Bool :=
  decide (a.year < b.year ∨ (a.year = b.year ∧
    (a.month < b.month ∨ (a.month = b.month ∧ a.day ≤ b.day))))

/-- Lexicographic strict date comparison, as Python datetime.__lt__. -/
def dateLt (a b : Date) : Bool :=
  decide (a.year < b.year ∨ (a.year = b.year ∧
    (a.month < b.month ∨ (a.month = b.month ∧ a.day < b.day))))

def isLeap (y : Nat) : Bool := decide (y % 4 = 0 ∧ (¬ y % 100 = 0 ∨ y % 400 = 0))

def daysInMonth (y m : Nat) : Nat :=
  if m = 2 then (if isLeap y then 29 else 28)
  else if m = 4 ∨ m = 6 ∨ m = 9 ∨ m = 11 then 30
  else 31

def validDate (y m d : Nat) : Bool :=
  decide (1 ≤ y ∧ y ≤ 9999 ∧ 1 ≤ m ∧ m ≤ 12 ∧ 1 ≤ d) && decide (d ≤ daysInMonth y m)

/-- Python `datetime(year, month, day)`: raises ValueError on an invalid
calendar date, modelled as `Except.error ()`. -/
def mkDatetime (y m d : Nat) : Except Unit Date :=
  if validDate y m d then Except.ok ⟨y, m, d⟩ else Except.error ()

/-- The `maanden` table of parse_datum_text, in its Python insertion order. -/
def maanden : List (List Char × Nat) :=
  [("januari".data, 1), ("februari".data, 2), ("maart".data, 3), ("april".data, 4),
   ("mei".data, 5), ("juni".data, 6), ("juli".data, 7), ("augustus".data, 8),
   ("september".data, 9), ("oktober".data, 10), ("november".data, 11), ("december".data, 12)]

/-- One attempt of the regex `(\d{1,2})\s+(\w+)\s+(\d{4})` anchored at the head
of cs.  Greedy matching with the backtracking collapsed: every adjacent pair of
quantified character classes in this pattern is disjoint, so maximal munch at
each quantifier is exactly what the backtracking engine computes. -/
def matchDatumAt (cs : List Char) : Option (Nat × List Char × Nat) :=
  let digs := cs.takeWhile isDig
  if digs.length = 0 ∨ 2 < digs.length then none
  else
    let rest1 := cs.drop digs.length
    let sp1 := rest1.takeWhile isPySpace
    if sp1.length = 0 then none
    else
      let rest2 := rest1.drop sp1.length
      let word := rest2.takeWhile isWordChar
      if word.length = 0 then none
      else
        let rest3 := rest2.drop word.length
        let sp2 := rest3.takeWhile isPySpace
        if sp2.length = 0 then none
        else
          let rest4 := rest3.drop sp2.length
          let yd := rest4.take 4
          if yd.length = 4 ∧ yd.all isDig then
            some (digitsToNat digs, word, digitsToNat yd)
          else none

/-- re.search: leftmost position at which the date pattern matches. -/
def searchDatum : List Char → Option (Nat × List Char × Nat)
  | [] => none
  | c :: rest =>
    match matchDatumAt (c :: rest) with
    | some r => some r
    | none => searchDatum rest

/-- First month whose name has the matched word as a prefix (dict iteration
order, first match wins), as the loop in parse_datum_text. -/
def findMaand (w : List Char) : Option Nat :=
  (maanden.find? (fun p => startsWithL w p.1)).map Prod.snd

/-- parse_datum_text: parse Dutch free-text dates such as "1 december 2025".
The datetime() call is not guarded, so an invalid matched calendar date
propagates as an exception (Except.error). -/
def parse_datum_text (datum_text : String) : Except Unit (Option Date) :=
  match searchDatum (pyLower datum_text.data) with
  | none => Except.ok none
  | some (dag, word, jaar) =>
    match findMaand word with
    | some nummer =>
      match mkDatetime jaar nummer dag with
      | Except.ok d => Except.ok (some d)
      | Except.error u => Except.error u
    | none => Except.ok none

/-- The `{'y': 4, 't': 3, 'q': 2, 'm': 1}.get(prefix, 0)` dictionary lookup. -/
def prefixValue (p : Char) : Nat :=
  if p = 'y' then 4 else if p = 't' then 3 else if p = 'q' then 2
  else if p = 'm' then 1 else 0

/-- The optional regex group `(?:-(\d{1,2}))?` after the year: greedy 1-2 digit
sub-period number, 0 when the group does not participate in the match. -/
def periodeNummer : List Char → Nat
  | '-' :: e1 :: e2 :: _ =>
    if isDig e1 then (if isDig e2 then dval e1 * 10 + dval e2 else dval e1) else 0
  | ['-', e1] => if isDig e1 then dval e1 else 0
  | _ => 0

/-- re.match of `([mytq])-(\d{4})(?:-(\d{1,2}))?` on an already lower-cased
token (re.match anchors at the start only; trailing junk is allowed). -/
def parse_periode_chars : List Char → Option Nat
  | p :: q :: d1 :: d2 :: d3 :: d4 :: rest =>
    if q = '-' ∧ (p = 'm' ∨ p = 'y' ∨ p = 't' ∨ p = 'q') ∧
        isDig d1 = true ∧ isDig d2 = true ∧ isDig d3 = true ∧ isDig d4 = true then
      some (digitsToNat [d1, d2, d3, d4] * 10000 + periodeNummer rest * 100 + prefixValue p)
    else none
  | _ => none

/-- parse_periode: period token (for example "m-2025-08", "y-2024") to a single
comparable value jaar * 10000 + nummer * 100 + prefix_value. -/
def parse_periode (periode_str : String) : Option Nat :=
  if periode_str.data.isEmpty then none
  else parse_periode_chars (pyLower periode_str.data)

/-- One calendar entry as scraped: date text, statistic name, period token. -/
structure Entry where
  datum_text : String
  naam : String
  periode : String
deriving DecidableEq, Repr

/-- The `{'datum': ..., 'periode': ..., 'entry': ...}` dicts collected by
find_all_statistic_entries_in_calendar. -/
structure MatchRec where
  datum : Date
  periode : String
  entry : Entry
deriving DecidableEq, Repr

/-- The `{'datum': ..., 'periode': ..., 'periode_value': ..., 'entry': ...}`
dicts collected by get_latest_available_version. -/
structure AvailResult where
  datum : Date
  periode : String
  periode_value : Nat
  entry : Entry
deriving DecidableEq, Repr

/-- Per-series outcome of check_and_download_statistics, download step cut off
at the decision (the decision carries the entry and date forward). -/
inductive Outcome where
  | skipNoLookupName
  | skipNoEntries
  | skipNotAvailable
  | upToDate
  | needsFetch (entry : Entry) (datum : Date)
deriving DecidableEq, Repr

/-- `entry.get('naam', '').lower().strip()`. -/
def entryNaam (e : Entry) : List Char := pyStrip (pyLower e.naam.data)

/-- First pass of find_statistic_in_calendar: exact equality. -/
def exactLoop (nl : List Char) : List Entry → Option Entry
  | [] => none
  | e :: es => if entryNaam e == nl then some e else exactLoop nl es

/-- Second pass of find_statistic_in_calendar: substring either way. -/
def fuzzyLoop (nl : List Char) : List Entry → Option Entry
  | [] => none
  | e :: es =>
    if containsSub (entryNaam e) nl || containsSub nl (entryNaam e) then some e
    else fuzzyLoop nl es

/-- find_statistic_in_calendar: first exact hit, else first fuzzy hit. -/
def find_statistic_in_calendar (statistic_name : String) (entries : List Entry) : Option Entry :=
  match exactLoop (pyStrip (pyLower statistic_name.data)) entries with
  | some e => some e
  | none => fuzzyLoop (pyStrip (pyLower statistic_name.data)) entries

/-- The match condition of find_all_statistic_entries_in_calendar. -/
def nameMatches (nl : List Char) (e : Entry) : Bool :=
  entryNaam e == nl || containsSub (entryNaam e) nl || containsSub nl (entryNaam e)

/-- The collection loop of find_all_statistic_entries_in_calendar: keep the
name matches whose datum_text parses; a raised parse exception propagates. -/
def collectMatches (nl : List Char) : List Entry → Except Unit (List MatchRec)
  | [] => Except.ok []
  | e :: es =>
    if nameMatches nl e then
      match parse_datum_text e.datum_text with
      | Except.error u => Except.error u
      | Except.ok none => collectMatches nl es
      | Except.ok (some d) =>
        match collectMatches nl es with
        | Except.error u => Except.error u
        | Except.ok l => Except.ok (⟨d, e.periode, e⟩ :: l)
    else collectMatches nl es

/-- Stable descending insertion by datum: x goes after every element that is
greater than or equal to it, which is what Python sorted(reverse=True) yields. -/
def insertDesc (x : MatchRec) : List MatchRec → List MatchRec
  | [] => [x]
  | y :: ys => if dateLt y.datum x.datum then x :: y :: ys else y :: insertDesc x ys

/-- `sorted(entries, key=lambda x: x['datum'], reverse=True)`. -/
def sortDescByDatum (l : List MatchRec) : List MatchRec :=
  l.foldl (fun acc x => insertDesc x acc) []

/-- find_all_statistic_entries_in_calendar. -/
def find_all_statistic_entries_in_calendar (statistic_name : String) (entries : List Entry) :
    Except Unit (List MatchRec) :=
  match collectMatches (pyStrip (pyLower statistic_name.data)) entries with
  | Except.error u => Except.error u
  | Except.ok l => Except.ok (sortDescByDatum l)

/-- The filter loop of get_latest_available_version: keep entries published
today or earlier whose periode parses to a truthy (nonzero) value. -/
def availableFilter (today : Date) : List MatchRec → List AvailResult
  | [] => []
  | m :: ms =>
    if dateLe m.datum today then
      match parse_periode m.periode with
      | some v =>
        if v ≠ 0 then ⟨m.datum, m.periode, v, m.entry⟩ :: availableFilter today ms
        else availableFilter today ms
      | none => availableFilter today ms
    else availableFilter today ms

/-- Python `max(available_entries, key=lambda x: x['periode_value'])`:
first element with the maximal key. -/
def maxByPeriode (a : AvailResult) : List AvailResult → AvailResult
  | [] => a
  | b :: rest => maxByPeriode (if a.periode_value < b.periode_value then b else a) rest

/-- get_latest_available_version. -/
def get_latest_available_version (entries : List MatchRec) (today : Date) :
    Option AvailResult :=
  match availableFilter today entries with
  | [] => none
  | a :: rest => some (maxByPeriode a rest)

/-- `stat.get('naam', '').replace(' ', '_').lower()`. -/
def statNameUnderscored (stat_naam : String) : List Char :=
  pyLower (stat_naam.data.map (fun c => if c = ' ' then '_' else c))

/-- endsWithL sfx s : sfx is a suffix of s. -/
def endsWithL (sfx s : List Char) : Bool := startsWithL sfx.reverse s.reverse

/-- Glob pattern `pfx*ext` against a single file name. -/
def globMatch (pfx ext f : List Char) : Bool :=
  decide (pfx.length + ext.length ≤ f.length) && startsWithL pfx f && endsWithL ext f

/-- Index (counting from the end, 0-based) of the last dot of a name. -/
def revDotIdx : List Char → Option Nat
  | [] => none
  | c :: cs => if c = '.' then some 0 else (revDotIdx cs).map (· + 1)

/-- pathlib Path(name).stem: the name with its last suffix removed; a dot at
position 0 or at the very end does not count as a suffix separator. -/
def pyStem (s : List Char) : List Char :=
  match revDotIdx s.reverse with
  | none => s
  | some j => if 0 < j ∧ j + 1 < s.length then s.take (s.length - (j + 1)) else s

/-- `re.search(r'(\d{8})$', filename)`: the trailing 8 characters when they
are all digits. -/
def extract8 (stem : List Char) : Option (List Char) :=
  let t := stem.drop (stem.length - 8)
  if 8 ≤ stem.length ∧ t.all isDig = true then some t else none

/-- `datetime.strptime(date_str, '%Y%m%d')` succeeds on the 8 digits. -/
def date8valid (ds : List Char) : Bool :=
  validDate (digitsToNat (ds.take 4)) (digitsToNat ((ds.drop 4).take 2)) (digitsToNat (ds.drop 6))

/-- `int(date_str[:6])`: the YYYYMM value of an 8-digit date string. -/
def first6 (ds : List Char) : Nat := digitsToNat (ds.take 6)

/-- Per-file body of the get_latest_downloaded_version loop: trailing 8-digit
token of the stem, strictly parsed as a date, reduced to YYYYMM. -/
def candKey (f : List Char) : Option Nat :=
  match extract8 (pyStem f) with
  | some ds => if date8valid ds then some (first6 ds) else none
  | none => none

/-- One glob pattern of the get_latest_downloaded_version scan, folded over the
directory listing; the running maximum is only replaced by a strictly greater
key, so the first file with the maximal key wins. -/
def scanFiles (pfx ext : List Char) (files : List String) (acc : Option (String × Nat)) :
    Option (String × Nat) :=
  match files with
  | [] => acc
  | f :: fs =>
    scanFiles pfx ext fs
      (if globMatch pfx ext f.data then
        match candKey f.data with
        | some v =>
          match acc with
          | none => some (f, v)
          | some fv => if fv.2 < v then some (f, v) else acc
        | none => acc
      else acc)

/-- get_latest_downloaded_version: scan the listing for the three extension
patterns in order, returning the newest (file, YYYYMM) pair, if any. -/
def get_latest_downloaded_version (stat_naam : String) (files : List String) :
    Option (String × Nat) :=
  scanFiles (statNameUnderscored stat_naam ++ ['_']) ".txt".data files
    (scanFiles (statNameUnderscored stat_naam ++ ['_']) ".csv".data files
      (scanFiles (statNameUnderscored stat_naam ++ ['_']) ".zip".data files none))

/-- The comparison block of check_and_download_statistics (lines 336-364):
available side is int(datum.strftime('%Y%m')); downloaded side is re-extracted
from the chosen file stem, 0 when no file or no trailing date token. -/
def decision_step (latest_available : AvailResult) (latest_downloaded_file : Option String) :
    Outcome :=
  let available_date_value := 100 * latest_available.datum.year + latest_available.datum.month
  let downloaded_date_value :=
    match latest_downloaded_file with
    | some f =>
      match extract8 (pyStem f.data) with
      | some ds => first6 ds
      | none => 0
    | none => 0
  if available_date_value ≤ downloaded_date_value then Outcome.upToDate
  else Outcome.needsFetch latest_available.entry latest_available.datum

/-- One iteration of the per-series loop of check_and_download_statistics,
from the config entry to the freshness decision. -/
def evaluate_series (kalender_naam : Option String) (stat_naam : String)
    (calendar : List Entry) (files : List String) (today : Date) : Except Unit Outcome :=
  match kalender_naam with
  | none => Except.ok Outcome.skipNoLookupName
  | some kn =>
    if kn.data.isEmpty then Except.ok Outcome.skipNoLookupName
    else
      match find_all_statistic_entries_in_calendar kn calendar with
      | Except.error u => Except.error u
      | Except.ok [] => Except.ok Outcome.skipNoEntries
      | Except.ok (m :: ms) =>
        match get_latest_available_version (m :: ms) today with
        | none => Except.ok Outcome.skipNotAvailable
        | some latest_available =>
          Except.ok (decision_step latest_available
            (Option.map Prod.fst (get_latest_downloaded_version stat_naam files)))

/-- Freshness decision following the words of spec section 4.5, for comparison
with decision_step: available side is YYYY*100+MM of the ParsedDate, downloaded
side is the yearMonthKey (0 when absent); UpToDate iff downloaded is greater
than or equal to available, else NeedsFetch with the record and date. -/
def decideSpec (latest_available : AvailResult) (downloadedYearMonth : Nat) : Outcome :=
  if 100 * latest_available.datum.year + latest_available.datum.month ≤ downloadedYearMonth
  then Outcome.upToDate
  else Outcome.needsFetch latest_available.entry latest_available.datum

/-- findBestMatch following the words of claim C8, for comparison with
find_statistic_in_calendar: first exact-equality hit across all records if one
exists, else the first record where one trimmed lower-cased name is a
substring of the other, else none. -/
def findBestMatchSpec (statistic_name : String) (entries : List Entry) : Option Entry :=
  (entries.find? (fun e => entryNaam e == pyStrip (pyLower statistic_name.data))).orElse
    (fun _ => entries.find? (fun e =>
      containsSub (entryNaam e) (pyStrip (pyLower statistic_name.data)) ||
      containsSub (pyStrip (pyLower statistic_name.data)) (entryNaam e)))

/- Helper lemmas shared by several claims. -/

theorem lowerChar_of_isDig {c : Char} (h : isDig c = true) : lowerChar c = c := by
  have h2 : 48 ≤ c.toNat ∧ c.toNat ≤ 57 := by
    simpa [isDig] using h
  unfold lowerChar
  rw [if_neg]
  omega

theorem dateLe_of_dateLt {a b : Date} (h : dateLt a b = true) : dateLe a b = true := by
  simp only [dateLt, decide_eq_true_eq] at h
  simp only [dateLe, decide_eq_true_eq]
  omega

theorem dateLe_of_not_dateLt {a b : Date} (h : dateLt a b = false) : dateLe b a = true := by
  simp only [dateLt, decide_eq_false_iff_not] at h
  simp only [dateLe, decide_eq_true_eq]
  omega

theorem dateLe_trans {a b c : Date} (h1 : dateLe a b = true) (h2 : dateLe b c = true) :
    dateLe a c = true := by
  simp only [dateLe, decide_eq_true_eq] at h1 h2 ⊢
  omega

theorem parse_periode_chars_digit_head (c : Char) (t : List Char) (hc : isDig c = true) :
    parse_periode_chars (c :: t) = none := by
  match t with
  | [] => rfl
  | [a] => rfl
  | [a, b] => rfl
  | [a, b, d] => rfl
  | [a, b, d, e] => rfl
  | a :: b :: d :: e :: f :: rest =>
    have hnot : ¬ (a = '-' ∧ (c = 'm' ∨ c = 'y' ∨ c = 't' ∨ c = 'q') ∧
        isDig b = true ∧ isDig d = true ∧ isDig e = true ∧ isDig f = true) := by
      rintro ⟨-, hp, -⟩
      rcases hp with h | h | h | h <;> (subst h; exact absurd hc (by decide))
    simp only [parse_periode_chars, if_neg hnot]

/- Claim C2. -/

/-- Claim C2: for every period token of the recognized shape — granularity
prefix, 4-digit year, and an absent, 1-digit or 2-digit sub-period number —
parse_periode returns year*10000 + subPeriodNumber*100 + granularityRank with
ranks y=4, t=3, q=2, m=1, and subPeriodNumber = 0 when the sub-period number
is absent; in particular "m-2025-08" gives 20250801 and "y-2024" gives
20240004. -/
theorem parse_periode_recognized_shape (p : Char) (r : Nat)
    (hp : (p, r) ∈ [('y', 4), ('t', 3), ('q', 2), ('m', 1)])
    (d1 d2 d3 d4 e1 e2 : Char)
    (h1 : isDig d1 = true) (h2 : isDig d2 = true) (h3 : isDig d3 = true)
    (h4 : isDig d4 = true) (h5 : isDig e1 = true) (h6 : isDig e2 = true) :
    parse_periode (String.mk [p, '-', d1, d2, d3, d4]) =
      some (digitsToNat [d1, d2, d3, d4] * 10000 + 0 * 100 + r) ∧
    parse_periode (String.mk [p, '-', d1, d2, d3, d4, '-', e1]) =
      some (digitsToNat [d1, d2, d3, d4] * 10000 + dval e1 * 100 + r) ∧
    parse_periode (String.mk [p, '-', d1, d2, d3, d4, '-', e1, e2]) =
      some (digitsToNat [d1, d2, d3, d4] * 10000 + (dval e1 * 10 + dval e2) * 100 + r) ∧
    parse_periode "m-2025-08" = some 20250801 ∧
    parse_periode "m-2025-8" = some 20250801 ∧
    parse_periode "y-2024" = some 20240004 := by
  have l1 := lowerChar_of_isDig h1
  have l2 := lowerChar_of_isDig h2
  have l3 := lowerChar_of_isDig h3
  have l4 := lowerChar_of_isDig h4
  have l5 := lowerChar_of_isDig h5
  have l6 := lowerChar_of_isDig h6
  have ldash : lowerChar '-' = '-' := by decide
  have ly : lowerChar 'y' = 'y' := by decide
  have lt' : lowerChar 't' = 't' := by decide
  have lq : lowerChar 'q' = 'q' := by decide
  have lm : lowerChar 'm' = 'm' := by decide
  simp only [List.mem_cons, List.not_mem_nil, or_false, Prod.mk.injEq] at hp
  rcases hp with ⟨hpc, hr⟩ | ⟨hpc, hr⟩ | ⟨hpc, hr⟩ | ⟨hpc, hr⟩ <;> subst hpc <;> subst hr <;>
    refine ⟨?_, ?_, ?_, rfl, rfl, rfl⟩ <;>
    simp [parse_periode, pyLower, parse_periode_chars, periodeNummer, prefixValue,
      l1, l2, l3, l4, l5, l6, ldash, ly, lt', lq, lm, h1, h2, h3, h4, h5, h6]

/-- Witness for claim C2 at the concrete token characters of "m-2025",
"m-2025-0" and "m-2025-08". -/
theorem parse_periode_recognized_shape_witness :
    parse_periode (String.mk ['m', '-', '2', '0', '2', '5']) =
      some (digitsToNat ['2', '0', '2', '5'] * 10000 + 0 * 100 + 1) ∧
    parse_periode (String.mk ['m', '-', '2', '0', '2', '5', '-', '0']) =
      some (digitsToNat ['2', '0', '2', '5'] * 10000 + dval '0' * 100 + 1) ∧
    parse_periode (String.mk ['m', '-', '2', '0', '2', '5', '-', '0', '8']) =
      some (digitsToNat ['2', '0', '2', '5'] * 10000 + (dval '0' * 10 + dval '8') * 100 + 1) ∧
    parse_periode "m-2025-08" = some 20250801 ∧
    parse_periode "m-2025-8" = some 20250801 ∧
    parse_periode "y-2024" = some 20240004 :=
  parse_periode_recognized_shape 'm' 1 (by decide) '2' '0' '2' '5' '0' '8'
    (by decide) (by decide) (by decide) (by decide) (by decide) (by decide)

/- Claim C3. -/

/-- Claim C3 counterexample: parse_periode "y-2025" yields 20250004, which is
smaller, not greater, than parse_periode "t-2025-01" = 20250103 — the first
claimed inequality is false on the code. -/
theorem parse_periode_rank_counterexample :
    parse_periode "y-2025" = some 20250004 ∧
    parse_periode "t-2025-01" = some 20250103 ∧
    20250004 < 20250103 := ⟨rfl, rfl, by norm_num⟩

/-- Claim C3 (amended): parse_periode "t-2025-01" > parse_periode "m-2025-01"
holds as claimed, but parse_periode "y-2025" = 20250004 is smaller than
parse_periode "t-2025-01" = 20250103 because their sub-period numbers differ;
the yearly > quarterly > monthly rank ordering holds at equal year and
sub-period, for example on "y-2025", "t-2025", "m-2025". -/
theorem parse_periode_rank_amended :
    (parse_periode "t-2025-01" = some 20250103 ∧
     parse_periode "m-2025-01" = some 20250101 ∧ 20250103 > 20250101) ∧
    (parse_periode "y-2025" = some 20250004 ∧
     parse_periode "t-2025" = some 20250003 ∧
     parse_periode "m-2025" = some 20250001 ∧
     20250004 > 20250003 ∧ 20250003 > 20250001) ∧
    20250004 < 20250103 :=
  ⟨⟨rfl, rfl, by norm_num⟩, ⟨rfl, rfl, rfl, by norm_num, by norm_num⟩, by norm_num⟩

/- Claim C5. -/

/-- Claim C5 (code bug): parse_datum_text is claimed to return a value or
absent on every input, but on "31 februari 2025" the matched day, month and
year form an invalid calendar date and the unguarded datetime() call raises;
the embedding returns the propagated exception. -/
theorem parse_datum_text_invalid_date_error :
    parse_datum_text "31 februari 2025" = Except.error () := rfl

/- Claim C9. -/

/-- Claim C9 counterexample: a bare 4-digit year without the single-letter
granularity prefix is NOT recognized — parse_periode returns none on "2024"
and on "2024-05", not a key with rank 0. -/
theorem parse_periode_bare_year_counterexample :
    parse_periode "2024" = none ∧ parse_periode "2024-05" = none := ⟨rfl, rfl⟩

/-- Claim C9 (amended): the granularity prefix is mandatory, not optional —
for every token whose first character is a digit (in particular every token
that starts with a bare 4-digit year), parse_periode returns none; the
unknown-granularity rank 0 of the lookup table is unreachable. -/
theorem parse_periode_bare_year_absent (s : String) (c : Char) (cs : List Char)
    (hs : s.data = c :: cs) (hc : isDig c = true) :
    parse_periode s = none := by
  have h1 : lowerChar c = c := lowerChar_of_isDig hc
  unfold parse_periode
  rw [hs]
  simp only [List.isEmpty_cons, Bool.false_eq_true, if_false, pyLower, List.map_cons, h1]
  exact parse_periode_chars_digit_head c _ hc

/-- Witness for the amended claim C9 at the token "2024". -/
theorem parse_periode_bare_year_absent_witness : parse_periode "2024" = none :=
  parse_periode_bare_year_absent "2024" '2' ['0', '2', '4'] rfl (by decide)

/- Claim C10. -/

/-- Calendar with a single name-matching record whose date text has no
parseable date, for claim C10. -/
def cal10 : List Entry := [⟨"datum onbekend", "Bouwvergunningen", "m-2025-01"⟩]

/-- Claim C10: find_statistic_in_calendar applies no date filtering — on cal10
it returns the record whose datum_text does not parse, while
find_all_statistic_entries_in_calendar on the same inputs excludes it and
returns no match at all. -/
theorem find_best_no_date_filter :
    find_statistic_in_calendar "Bouwvergunningen" cal10 =
      some ⟨"datum onbekend", "Bouwvergunningen", "m-2025-01"⟩ ∧
    parse_datum_text "datum onbekend" = Except.ok none ∧
    find_all_statistic_entries_in_calendar "Bouwvergunningen" cal10 = Except.ok [] :=
  ⟨rfl, rfl, rfl⟩

/- Claim C6. -/

theorem availableFilter_dateLe (t : Date) (ms : List MatchRec) :
    ∀ a, a ∈ availableFilter t ms → dateLe a.datum t = true := by
  induction ms with
  | nil => intro a ha; simp [availableFilter] at ha
  | cons m rest ih =>
    intro a ha
    unfold availableFilter at ha
    split at ha
    · rename_i hd
      split at ha
      · rename_i v hp
        split at ha
        · rcases List.mem_cons.mp ha with ha | ha
          · subst ha; exact hd
          · exact ih a ha
        · exact ih a ha
      · exact ih a ha
    · exact ih a ha

theorem maxByPeriode_mem (l : List AvailResult) : ∀ a, maxByPeriode a l ∈ a :: l := by
  induction l with
  | nil => intro a; exact List.mem_cons_self a []
  | cons b rest ih =>
    intro a
    unfold maxByPeriode
    split
    · rcases List.mem_cons.mp (ih b) with h | h
      · rw [h]; simp
      · simp [h]
    · rcases List.mem_cons.mp (ih a) with h | h
      · rw [h]; simp
      · simp [h]

theorem availableFilter_none (t : Date) (ms : List MatchRec)
    (h : ∀ m, m ∈ ms → parse_periode m.periode = none) : availableFilter t ms = [] := by
  induction ms with
  | nil => rfl
  | cons m rest ih =>
    have hm := h m (List.mem_cons_self m rest)
    have ih2 := ih (fun x hx => h x (List.mem_cons_of_mem m hx))
    unfold availableFilter
    rw [hm]
    split <;> exact ih2

/-- Claim C6: get_latest_available_version never returns a record dated
strictly after today, and returns none when no match in its input list has a
parseable period token (all input matches already carry a parsed date). -/
theorem get_latest_available_safe (ms : List MatchRec) (t : Date) :
    (∀ r, get_latest_available_version ms t = some r → dateLe r.datum t = true) ∧
    ((∀ m, m ∈ ms → parse_periode m.periode = none) →
      get_latest_available_version ms t = none) := by
  constructor
  · intro r hr
    unfold get_latest_available_version at hr
    cases hf : availableFilter t ms with
    | nil => rw [hf] at hr; cases hr
    | cons a rest =>
      rw [hf] at hr
      injection hr with hr
      subst hr
      have hmem : maxByPeriode a rest ∈ availableFilter t ms := by
        rw [hf]; exact maxByPeriode_mem rest a
      exact availableFilter_dateLe t ms _ hmem
  · intro h
    unfold get_latest_available_version
    rw [availableFilter_none t ms h]

/-- Example entry for the claim C6 witness. -/
def entry6 : Entry := ⟨"1 januari 2025", "X", "m-2025-01"⟩

/-- Match with a parseable period token, for the claim C6 witness. -/
def match6 : MatchRec := ⟨⟨2025, 1, 1⟩, "m-2025-01", entry6⟩

/-- Match with an unparseable period token, for the claim C6 witness. -/
def match6bad : MatchRec := ⟨⟨2025, 1, 1⟩, "??", entry6⟩

/-- Witness for claim C6: both conclusions discharged at concrete inputs. -/
theorem get_latest_available_safe_witness :
    dateLe (AvailResult.datum ⟨⟨2025, 1, 1⟩, "m-2025-01", 20250101, entry6⟩) ⟨2025, 6, 1⟩ = true ∧
    get_latest_available_version [match6bad] ⟨2025, 6, 1⟩ = none :=
  ⟨(get_latest_available_safe [match6] ⟨2025, 6, 1⟩).1
      ⟨⟨2025, 1, 1⟩, "m-2025-01", 20250101, entry6⟩ rfl,
   (get_latest_available_safe [match6bad] ⟨2025, 6, 1⟩).2 (by decide)⟩

/- Claim C7. -/

theorem mem_insertDesc (x z : MatchRec) (l : List MatchRec) :
    z ∈ insertDesc x l ↔ z = x ∨ z ∈ l := by
  induction l with
  | nil => simp [insertDesc]
  | cons y ys ih =>
    unfold insertDesc
    split
    · simp [List.mem_cons]
    · simp only [List.mem_cons, ih]
      tauto

theorem pairwise_insertDesc (x : MatchRec) (l : List MatchRec)
    (h : List.Pairwise (fun a b => dateLe b.datum a.datum = true) l) :
    List.Pairwise (fun a b => dateLe b.datum a.datum = true) (insertDesc x l) := by
  induction l with
  | nil => simp [insertDesc]
  | cons y ys ih =>
    rcases List.pairwise_cons.mp h with ⟨hy, hys⟩
    unfold insertDesc
    split
    · rename_i hlt
      refine List.pairwise_cons.mpr ⟨?_, h⟩
      intro z hz
      rcases List.mem_cons.mp hz with hz | hz
      · subst hz; exact dateLe_of_dateLt hlt
      · exact dateLe_trans (hy z hz) (dateLe_of_dateLt hlt)
    · rename_i hnlt
      refine List.pairwise_cons.mpr ⟨?_, ih hys⟩
      intro z hz
      rcases (mem_insertDesc x z ys).mp hz with hz | hz
      · subst hz
        exact dateLe_of_not_dateLt (Bool.of_not_eq_true hnlt)
      · exact hy z hz

theorem mem_sortFold (l : List MatchRec) :
    ∀ acc z, z ∈ l.foldl (fun acc x => insertDesc x acc) acc ↔ z ∈ acc ∨ z ∈ l := by
  induction l with
  | nil => intro acc z; simp
  | cons x xs ih =>
    intro acc z
    simp only [List.foldl_cons]
    rw [ih (insertDesc x acc) z, mem_insertDesc]
    simp only [List.mem_cons]
    tauto

theorem pairwise_sortFold (l : List MatchRec) :
    ∀ acc, List.Pairwise (fun a b => dateLe b.datum a.datum = true) acc →
      List.Pairwise (fun a b => dateLe b.datum a.datum = true)
        (l.foldl (fun acc x => insertDesc x acc) acc) := by
  induction l with
  | nil => intro acc h; exact h
  | cons x xs ih =>
    intro acc h
    simp only [List.foldl_cons]
    exact ih _ (pairwise_insertDesc x acc h)

theorem mem_sortDescByDatum (l : List MatchRec) (z : MatchRec) :
    z ∈ sortDescByDatum l ↔ z ∈ l := by
  unfold sortDescByDatum
  rw [mem_sortFold]
  simp

theorem pairwise_sortDescByDatum (l : List MatchRec) :
    List.Pairwise (fun a b => dateLe b.datum a.datum = true) (sortDescByDatum l) :=
  pairwise_sortFold l [] List.Pairwise.nil

theorem collectMatches_parse (nl : List Char) (es : List Entry) :
    ∀ l, collectMatches nl es = Except.ok l →
      ∀ x, x ∈ l → parse_datum_text x.entry.datum_text = Except.ok (some x.datum) := by
  induction es with
  | nil =>
    intro l hl x hx
    unfold collectMatches at hl
    injection hl with hl
    subst hl
    cases hx
  | cons e es ih =>
    intro l hl x hx
    unfold collectMatches at hl
    split at hl
    · split at hl
      · cases hl
      · exact ih l hl x hx
      · rename_i d hd
        split at hl
        · cases hl
        · rename_i l2 hl2
          injection hl with hl
          subst hl
          rcases List.mem_cons.mp hx with hx | hx
          · subst hx; exact hd
          · exact ih l2 hl2 x hx
    · exact ih l hl x hx

/-- Claim C7: whenever find_all_statistic_entries_in_calendar returns
normally, every element of the result carries the successful parse of its
record datum_text (records with unparseable date text are excluded even when
their name matches), and the result is sorted by date, newest first. -/
theorem find_all_parse_and_sorted (statistic_name : String) (cal : List Entry)
    (res : List MatchRec)
    (h : find_all_statistic_entries_in_calendar statistic_name cal = Except.ok res) :
    (∀ x, x ∈ res → parse_datum_text x.entry.datum_text = Except.ok (some x.datum)) ∧
    List.Pairwise (fun a b => dateLe b.datum a.datum = true) res := by
  unfold find_all_statistic_entries_in_calendar at h
  cases hc : collectMatches (pyStrip (pyLower statistic_name.data)) cal with
  | error u => rw [hc] at h; cases h
  | ok l =>
    rw [hc] at h
    injection h with h
    subst h
    constructor
    · intro x hx
      exact collectMatches_parse _ cal l hc x ((mem_sortDescByDatum l x).mp hx)
    · exact pairwise_sortDescByDatum l

/-- Example calendar for the claim C7 witness: two parseable records out of
date order around one name-matching record with unparseable date text. -/
def cal7 : List Entry :=
  [⟨"1 januari 2025", "X", "m-2025-01"⟩, ⟨"geen datum", "X", "?"⟩,
   ⟨"1 maart 2025", "X", "m-2025-03"⟩]

/-- Expected find_all result on cal7, for the claim C7 witness. -/
def res7 : List MatchRec :=
  [⟨⟨2025, 3, 1⟩, "m-2025-03", ⟨"1 maart 2025", "X", "m-2025-03"⟩⟩,
   ⟨⟨2025, 1, 1⟩, "m-2025-01", ⟨"1 januari 2025", "X", "m-2025-01"⟩⟩]

/-- Witness for claim C7 at the concrete calendar cal7. -/
theorem find_all_parse_and_sorted_witness :
    (∀ x, x ∈ res7 → parse_datum_text x.entry.datum_text = Except.ok (some x.datum)) ∧
    List.Pairwise (fun a b => dateLe b.datum a.datum = true) res7 :=
  find_all_parse_and_sorted "X" cal7 res7 rfl

/- Claim C8. -/

theorem exactLoop_eq_find (nl : List Char) (es : List Entry) :
    exactLoop nl es = es.find? (fun e => entryNaam e == nl) := by
  induction es with
  | nil => rfl
  | cons e es ih =>
    unfold exactLoop
    rw [List.find?]
    cases h : (entryNaam e == nl) <;> simp [h, ih]

theorem fuzzyLoop_eq_find (nl : List Char) (es : List Entry) :
    fuzzyLoop nl es =
      es.find? (fun e => containsSub (entryNaam e) nl || containsSub nl (entryNaam e)) := by
  induction es with
  | nil => rfl
  | cons e es ih =>
    unfold fuzzyLoop
    rw [List.find?]
    cases h : (containsSub (entryNaam e) nl || containsSub nl (entryNaam e)) <;> simp [h, ih]

/-- Claim C8: find_statistic_in_calendar is first-found, not best-found — it
returns the first record (in iteration order) whose trimmed lower-cased name
equals the trimmed lower-cased lookup name if one exists, else the first
record where one of the two names is a substring of the other, else none;
exactly the contract written out in findBestMatchSpec. -/
theorem find_statistic_first_found (statistic_name : String) (entries : List Entry) :
    find_statistic_in_calendar statistic_name entries =
      findBestMatchSpec statistic_name entries := by
  unfold find_statistic_in_calendar findBestMatchSpec
  rw [← exactLoop_eq_find, ← fuzzyLoop_eq_find]
  cases exactLoop (pyStrip (pyLower statistic_name.data)) entries <;>
    simp [Option.orElse]

/- Claim C1. -/

theorem scanFiles_key (pfx ext : List Char) (files : List String) :
    ∀ acc : Option (String × Nat),
      (∀ f v, acc = some (f, v) → candKey f.data = some v) →
      ∀ f v, scanFiles pfx ext files acc = some (f, v) → candKey f.data = some v := by
  induction files with
  | nil =>
    intro acc hacc f v h
    exact hacc f v h
  | cons g gs ih =>
    intro acc hacc f v h
    unfold scanFiles at h
    refine ih _ ?_ f v h
    intro f2 v2 h2
    split at h2
    · split at h2
      · rename_i v0 hck
        split at h2
        · injection h2 with h2
          cases h2
          exact hck
        · rename_i fv _
          split at h2
          · injection h2 with h2
            cases h2
            exact hck
          · exact hacc f2 v2 h2
      · exact hacc f2 v2 h2
    · exact hacc f2 v2 h2

theorem get_latest_downloaded_key (stat_naam : String) (files : List String)
    (f : String) (v : Nat)
    (h : get_latest_downloaded_version stat_naam files = some (f, v)) :
    candKey f.data = some v := by
  unfold get_latest_downloaded_version at h
  have base : ∀ (g : String) (w : Nat),
      (none : Option (String × Nat)) = some (g, w) → candKey g.data = some w := by
    intro g w hgw; cases hgw
  exact scanFiles_key _ _ files _
    (scanFiles_key _ _ files _ (scanFiles_key _ _ files _ base)) f v h

theorem candKey_extract (f : String) (v : Nat) (h : candKey f.data = some v) :
    (match extract8 (pyStem f.data) with
     | some ds => first6 ds
     | none => 0) = v := by
  unfold candKey at h
  cases hx : extract8 (pyStem f.data) with
  | none => rw [hx] at h; cases h
  | some ds =>
    rw [hx] at h
    dsimp only at h ⊢
    by_cases hd : date8valid ds = true
    · rw [if_pos hd] at h
      injection h
    · rw [if_neg hd] at h
      cases h

/-- Claim C1: the freshness decision of the per-series pipeline equals the
spec decision for every input — the available side is compared as YYYY*100+MM
of the entry ParsedDate (not its PeriodKey), the downloaded side is the local
yearMonthKey or 0 when no downloaded file exists, UpToDate exactly when
downloaded is at least available, and otherwise NeedsFetch carries the
available record and date forward. -/
theorem decision_matches_spec (stat_naam : String) (files : List String)
    (avail : AvailResult) :
    decision_step avail (Option.map Prod.fst (get_latest_downloaded_version stat_naam files)) =
    decideSpec avail
      (((get_latest_downloaded_version stat_naam files).map Prod.snd).getD 0) := by
  cases hg : get_latest_downloaded_version stat_naam files with
  | none => rfl
  | some fv =>
    obtain ⟨f, v⟩ := fv
    have hck := get_latest_downloaded_key stat_naam files f v hg
    have he := candKey_extract f v hck
    simp only [decision_step, decideSpec, Option.map, Option.getD]
    simp only [he]

/- Claim C4. -/

/-- The July entry of the claim C4 calendar. -/
def entryJul : Entry := ⟨"1 september 2025", "Bouwvergunningen", "m-2025-07"⟩

/-- The August entry of the claim C4 calendar. -/
def entryAug : Entry := ⟨"1 december 2025", "Bouwvergunningen", "m-2025-08"⟩

/-- The claim C4 calendar: exactly the two Bouwvergunningen entries. -/
def cal4 : List Entry := [entryJul, entryAug]

/-- The claim C4 directory listing: only bouwvergunningen_20250901.zip. -/
def files4 : List String := ["bouwvergunningen_20250901.zip"]

/-- The resolved latest available record in the claim C4 scenario. -/
def avail4 : AvailResult := ⟨⟨2025, 12, 1⟩, "m-2025-08", 20250801, entryAug⟩

/-- Claim C4: end-to-end on the two-entry Bouwvergunningen calendar with now =
2025-12-15 and bouwvergunningen_20250901.zip on disk, the pipeline resolves
the "m-2025-08" entry as latest available, the available comparison value is
202512 and the downloaded value 202509, and the decision is NeedsFetch for the
December-dated "m-2025-08" entry. -/
theorem end_to_end_december_needs_fetch :
    find_all_statistic_entries_in_calendar "Bouwvergunningen" cal4 =
      Except.ok [⟨⟨2025, 12, 1⟩, "m-2025-08", entryAug⟩, ⟨⟨2025, 9, 1⟩, "m-2025-07", entryJul⟩] ∧
    get_latest_available_version
      [⟨⟨2025, 12, 1⟩, "m-2025-08", entryAug⟩, ⟨⟨2025, 9, 1⟩, "m-2025-07", entryJul⟩]
      ⟨2025, 12, 15⟩ = some avail4 ∧
    100 * avail4.datum.year + avail4.datum.month = 202512 ∧
    get_latest_downloaded_version "Bouwvergunningen" files4 =
      some ("bouwvergunningen_20250901.zip", 202509) ∧
    evaluate_series (some "Bouwvergunningen") "Bouwvergunningen" cal4 files4 ⟨2025, 12, 15⟩ =
      Except.ok (Outcome.needsFetch entryAug ⟨2025, 12, 1⟩) :=
  ⟨rfl, rfl, rfl, rfl, rfl⟩
